import Mathlib

/-!
A verification development for `app/upload_tts_to_anki.py`: a shallow
embedding of the script's reconciliation core (record loading and provenance,
audio-filename derivation, remote note matching and mutation, the per-record
processing loop, and write-back), together with theorems checking the
specification's claims against it.

Conventions: Python strings become `String`; optional or missing JSON keys
become `Option`; Python truthiness tests on optional strings become
`falsyStr`; byte values and 32-bit words are `Nat` reduced with explicit
`% 256` / `% 2^32`; external calls (TTS backends, AnkiConnect RPCs, file
writes) are recorded as explicit effects, with oracles in `Env` deciding
which external calls succeed.
-/

/-- Truthiness of an optional string as Python's `not x` sees it:
`None` and the empty string are falsy. -/
def falsyStr : Option String → Bool
  | none => true
  | some s => s == ""

/-- The value stored under the `anki_note_id` key of a record: a numeric
AnkiConnect note id in a real run, or the string placeholder written in
dry-run mode (`f"dry_run_{item_id}"`). -/
inductive NoteRef where
  | real (n : Nat)
  | dryRun (s : String)
deriving Repr, DecidableEq

/-- One flashcard record, i.e. one object of an input JSON array, with the
keys the script reads or writes. -/
structure Record where
  id : Option String
  chinese : Option String
  english : Option String
  pinyin : Option String
  tags : Option (List String)
  audio_filename : Option String
  anki_note_id : Option NoteRef
deriving Repr, DecidableEq

/-! ### SHA-1 (`hashlib.sha1`), over byte lists, words as `Nat` mod 2^32 -/

/-- Reduce to a 32-bit word. -/
def m32 (x : Nat) : Nat := x % 4294967296

/-- Rotate a 32-bit word left by `n` bits. -/
def rotl32 (n x : Nat) : Nat := m32 ((x <<< n) ||| (x >>> (32 - n)))

/-- `n` bytes of `x`, big-endian. -/
def beBytes (n x : Nat) : List Nat :=
  (List.range n).map (fun i => (x >>> (8 * (n - 1 - i))) % 256)

/-- SHA-1 message padding: append `0x80`, zero bytes to 56 mod 64, and the
bit length as 8 big-endian bytes. -/
def sha1pad (msg : List Nat) : List Nat :=
  let k := (119 - msg.length % 64) % 64
  msg ++ [128] ++ List.replicate k 0 ++ beBytes 8 (msg.length * 8)

/-- Group bytes into 32-bit big-endian words. -/
def toWords : List Nat → List Nat
  | b0 :: b1 :: b2 :: b3 :: rest =>
    ((((b0 <<< 8) ||| b1) <<< 8 ||| b2) <<< 8 ||| b3) :: toWords rest
  | _ => []

/-- Split a byte list into 64-byte chunks. -/
def chunks64 (l : List Nat) : List (List Nat) :=
  if h : l = [] then [] else l.take 64 :: chunks64 (l.drop 64)
termination_by l.length
decreasing_by
  simp only [List.length_drop]
  exact Nat.sub_lt (List.length_pos.mpr h) (by decide)

/-- Extend the 16 words of a chunk to the 80 words of the SHA-1 schedule. -/
def sha1extend (ws : List Nat) : List Nat :=
  (List.range 64).foldl
    (fun acc _ =>
      let n := acc.length
      acc ++ [rotl32 1 ((acc.getD (n - 3) 0) ^^^ (acc.getD (n - 8) 0) ^^^
        (acc.getD (n - 14) 0) ^^^ (acc.getD (n - 16) 0))])
    ws

/-- Process one 64-byte chunk into the running SHA-1 state. -/
def sha1chunk (h : Nat × Nat × Nat × Nat × Nat) (chunk : List Nat) :
    Nat × Nat × Nat × Nat × Nat :=
  let ws := sha1extend (toWords chunk)
  let s := ws.enum.foldl
    (fun st iw =>
      let (a, b, c, d, e) := st
      let i := iw.1
      let w := iw.2
      let f :=
        if i < 20 then (b &&& c) ||| ((b ^^^ 4294967295) &&& d)
        else if i < 40 then b ^^^ c ^^^ d
        else if i < 60 then (b &&& c) ||| (b &&& d) ||| (c &&& d)
        else b ^^^ c ^^^ d
      let k :=
        if i < 20 then 1518500249
        else if i < 40 then 1859775393
        else if i < 60 then 2400959708
        else 3395469782
      (m32 (rotl32 5 a + f + e + k + w), a, rotl32 30 b, c, d))
    h
  match h, s with
  | (h0, h1, h2, h3, h4), (a, b, c, d, e) =>
    (m32 (h0 + a), m32 (h1 + b), m32 (h2 + c), m32 (h3 + d), m32 (h4 + e))

/-- SHA-1 of a byte list, as five 32-bit words. -/
def sha1digestWords (msg : List Nat) : Nat × Nat × Nat × Nat × Nat :=
  (chunks64 (sha1pad msg)).foldl sha1chunk
    (1732584193, 4023233417, 2562383102, 271733878, 3285377520)

/-- Lower-case hexadecimal digit. -/
def hexDigit (n : Nat) : Char :=
  if n < 10 then Char.ofNat (48 + n) else Char.ofNat (87 + n)

/-- A 32-bit word as 8 hex characters. -/
def hex8 (x : Nat) : String :=
  String.mk ((List.range 8).map (fun i => hexDigit ((x >>> (4 * (7 - i))) % 16)))

/-- `hashlib.sha1(...).hexdigest()`. -/
def sha1hex (msg : List Nat) : String :=
  match sha1digestWords msg with
  | (h0, h1, h2, h3, h4) => hex8 h0 ++ hex8 h1 ++ hex8 h2 ++ hex8 h3 ++ hex8 h4

/-- UTF-8 encoding of one character (`str.encode("utf-8")`, per code point). -/
def utf8Char (c : Char) : List Nat :=
  let n := c.toNat
  if n < 128 then [n]
  else if n < 2048 then [192 + n / 64, 128 + n % 64]
  else if n < 65536 then [224 + n / 4096, 128 + n / 64 % 64, 128 + n % 64]
  else [240 + n / 262144, 128 + n / 4096 % 64, 128 + n / 64 % 64, 128 + n % 64]

/-- UTF-8 encoding of a string as a byte list. -/
def utf8Bytes (s : String) : List Nat := (s.data.map utf8Char).flatten

/-- The per-character test of Python's `str.isalnum`. Python additionally
accepts non-ASCII alphanumeric code points; this embedding uses the ASCII
subclass, on which none of the properties proved below depend. -/
def pyAlnum (c : Char) : Bool := c.isAlphanum

/-- `safe_filename(s)`: `f"tts_{short}_{h}.mp3"` where `h` is the first 10
hex digits of the SHA-1 of the UTF-8 bytes of `s` and `short` is the first
12 alphanumeric characters of `s`. -/
def safe_filename (s : String) : String :=
  let h := (sha1hex (utf8Bytes s)).take 10
  let short := String.mk ((s.data.filter pyAlnum).take 12)
  "tts_" ++ short ++ "_" ++ h ++ ".mp3"

/-! ### The remote store (AnkiConnect), at its interface boundary -/

/-- One remote note: an id, the deck and model it was created in, a field
map (insertion-ordered, as a Python dict), and tags. -/
structure AnkiNote where
  noteId : Nat
  deck : String
  model : String
  fields : List (String × String)
  tags : List String
deriving Repr, DecidableEq

/-- The remote store: the notes it holds, the id the next `addNote` returns,
and the media filenames stored so far. -/
structure AnkiState where
  notes : List AnkiNote
  nextId : Nat
  media : List String
deriving Repr, DecidableEq

/-- `note['fields'].get(f, {}).get('value', '')`: the value of field `f`,
empty when absent. -/
def getField (n : AnkiNote) (f : String) : String :=
  match List.lookup f n.fields with
  | some v => v
  | none => ""

/-- Insertion into a Python dict: overwrite in place if the key is present,
append otherwise. -/
def dinsert (m : List (String × String)) (k v : String) :
    List (String × String) :=
  if m.any (fun kv => kv.1 == k) then
    m.map (fun kv => if kv.1 == k then (k, v) else kv)
  else m ++ [(k, v)]

/-- The `findNotes` query string the source builds:
`f'"{chinese_field}:{chinese_text}"'` — the text interpolated between double
quotes, with no further escaping. -/
def chineseQuery (chineseField chineseText : String) : String :=
  "\"" ++ chineseField ++ ":" ++ chineseText ++ "\""

/-- Interface semantics of `findNotes` with an exact `"field:value"` query:
the notes whose field equals the value, in store order. -/
def findNotesByField (st : AnkiState) (f v : String) : List AnkiNote :=
  st.notes.filter (fun n => getField n f == v)

/-- The loop of `find_existing_note_by_content` over `notesInfo` results:
first note whose English field equals the target after `.strip()` on both. -/
def firstEnglishMatch (englishField englishText : String) :
    List AnkiNote → Option Nat
  | [] => none
  | n :: rest =>
    if (getField n englishField).trim == englishText.trim then some n.noteId
    else firstEnglishMatch englishField englishText rest

/-- `find_existing_note_by_content`: query by the Chinese field, return
`None` when nothing matches, otherwise the first note among the results whose
English field matches after stripping. (`deck_name` is accepted and unused,
as in the source.) -/
def find_existing_note_by_content (st : AnkiState)
    (chineseText englishText deckName chineseField englishField : String) :
    Option Nat :=
  let existing := findNotesByField st chineseField chineseText
  if existing.isEmpty then none
  else firstEnglishMatch englishField englishText existing

/-- `build_id_mapping`: map each note's custom `ID` field value to its note
id, skipping empty ids; later notes overwrite earlier ones, as Python dict
assignment does. -/
def build_id_mapping (st : AnkiState) : List (String × Nat) :=
  st.notes.foldl
    (fun m note =>
      let customId := getField note "ID"
      if customId == "" then m
      else if m.any (fun kv => kv.1 == customId) then
        m.map (fun kv => if kv.1 == customId then (customId, note.noteId) else kv)
      else m ++ [(customId, note.noteId)])
    []

/-- The configuration values threaded through the run (from `config.yml`). -/
structure RunCfg where
  deckName : String
  modelName : String
  chineseField : String
  englishField : String
  pinyinField : String
  soundField : String
  tempDir : String
deriving Repr, DecidableEq

/-- The `card_data` dictionary built in `process_items`. -/
structure CardData where
  id : String
  chinese : String
  english : String
  pinyin : String
  tags : List String
  audio_filename : Option String
deriving Repr, DecidableEq

/-- The `fields` dict of `update_or_create_card`: chinese, english, pinyin
and `ID`, plus the sound reference when `card_data.get('audio_filename')` is
truthy. -/
def buildFields (cfg : RunCfg) (cd : CardData) : List (String × String) :=
  let base :=
    dinsert (dinsert (dinsert (dinsert [] cfg.chineseField cd.chinese)
      cfg.englishField cd.english) cfg.pinyinField cd.pinyin) "ID" cd.id
  match cd.audio_filename with
  | some f => if f == "" then base else dinsert base cfg.soundField ("[sound:" ++ f ++ "]")
  | none => base

/-- Merge a field dict into an existing one, key by key. -/
def mergeFields (base fs : List (String × String)) : List (String × String) :=
  fs.foldl (fun acc kv => dinsert acc kv.1 kv.2) base

/-- Interface semantics of `updateNote`: merge the given fields into the
note's field dict and replace its tags. -/
def applyNoteUpdate (st : AnkiState) (nid : Nat)
    (fs : List (String × String)) (tags : List String) : AnkiState :=
  { st with
    notes := st.notes.map (fun n =>
      if n.noteId == nid then { n with fields := mergeFields n.fields fs, tags := tags }
      else n) }

/-- Interface semantics of `addNote`: append a fresh note and bump the id. -/
def applyAddNote (st : AnkiState) (deck model : String)
    (fs : List (String × String)) (tags : List String) : AnkiState :=
  { st with
    notes := st.notes ++ [⟨st.nextId, deck, model, fs, tags⟩],
    nextId := st.nextId + 1 }

/-- Externally visible calls made by the run. -/
inductive Eff where
  | ttsCall (gtts : Bool) (text : String) (localPath : String)
  | localWrite (path : String)
  | findNotes (query : String)
  | notesInfo
  | storeMedia (filename : String)
  | updateNote (noteId : Nat)
  | addNote (noteId : Nat)
deriving Repr, DecidableEq

/-- A remote-store mutation, as opposed to a read. -/
def Eff.isMutation : Eff → Bool
  | .storeMedia _ => true
  | .updateNote _ => true
  | .addNote _ => true
  | _ => false

/-- A note mutation (create or update) on the remote store. -/
def Eff.isNoteMutation : Eff → Bool
  | .updateNote _ => true
  | .addNote _ => true
  | _ => false

/-- A TTS synthesis call. -/
def Eff.isTts : Eff → Bool
  | .ttsCall _ _ _ => true
  | _ => false

/-- Result of `update_or_create_card`: the note id, the log message, the
store after the call, and the remote calls made. -/
structure CardOpResult where
  noteId : Nat
  message : String
  state : AnkiState
  effs : List Eff
deriving Repr, DecidableEq

/-- `update_or_create_card`: resolve by content, then update the found note
or create a new one with the built fields and `card_data['tags'] or []`. -/
def update_or_create_card (cfg : RunCfg) (cd : CardData) (st : AnkiState) :
    CardOpResult :=
  let noteId? := find_existing_note_by_content st cd.chinese cd.english
    cfg.deckName cfg.chineseField cfg.englishField
  let fields := buildFields cfg cd
  let lookupEffs :=
    [Eff.findNotes (chineseQuery cfg.chineseField cd.chinese)] ++
      (if (findNotesByField st cfg.chineseField cd.chinese).isEmpty then []
       else [Eff.notesInfo])
  match noteId? with
  | some nid =>
    { noteId := nid,
      message := "Updated existing card: " ++ cd.id,
      state := applyNoteUpdate st nid fields cd.tags,
      effs := lookupEffs ++ [Eff.updateNote nid] }
  | none =>
    { noteId := st.nextId,
      message := "Created new card: " ++ cd.id ++ " (Note ID: " ++
        toString st.nextId ++ ")",
      state := applyAddNote st cfg.deckName cfg.modelName fields cd.tags,
      effs := lookupEffs ++ [Eff.addNote st.nextId] }

/-! ### The per-record reconciliation loop (`process_items`) -/

/-- Oracles for the external world: whether the primary TTS backend is
importable (`GTTS_AVAILABLE`), and which external calls succeed. A `false`
oracle value models the corresponding call raising an exception. -/
structure Env where
  gttsAvailable : Bool
  ttsOk : String → Bool
  storeOk : String → Bool
  cardOpOk : String → Bool

/-- `it.get("id") or f"idx{idx}"`: a missing or empty id falls back to the
position-derived placeholder. -/
def itemId (it : Record) (idx : Nat) : String :=
  match it.id with
  | some s => if s == "" then "idx" ++ toString idx else s
  | none => "idx" ++ toString idx

/-- Result of one iteration of the `process_items` loop: the (possibly
mutated) record, the remote store afterwards, the external calls made, and
whether the iteration reached `updated = True`. -/
structure StepResult where
  record : Record
  state : AnkiState
  effs : List Eff
  didWork : Bool
deriving Repr, DecidableEq

/-- Outcome of the audio stage (lines 234-268 of the source): either the
iteration hit `continue` (carrying the calls made before the failure), or it
proceeds with the record, the audio filename, and the calls made. -/
def audioStage (cfg : RunCfg) (env : Env) (dry : Bool) (idx : Nat)
    (it : Record) (chinese : String) : Sum (List Eff) (Record × String × List Eff) :=
  if falsyStr it.audio_filename then
    let fname := safe_filename (itemId it idx ++ "_" ++ chinese.take 20)
    let localPath := cfg.tempDir ++ "/" ++ fname
    if env.ttsOk chinese then
      let ttsEffs := [Eff.ttsCall env.gttsAvailable chinese localPath,
        Eff.localWrite localPath]
      if dry then Sum.inr ({ it with audio_filename := some fname }, fname, ttsEffs)
      else if env.storeOk fname then
        Sum.inr ({ it with audio_filename := some fname }, fname,
          ttsEffs ++ [Eff.storeMedia fname])
      else Sum.inl ttsEffs
    else Sum.inl [Eff.ttsCall env.gttsAvailable chinese localPath]
  else Sum.inr (it, it.audio_filename.getD "", [])

/-- One iteration of the `process_items` loop over `enumerate(items)`. -/
def processItem (cfg : RunCfg) (env : Env) (dry : Bool) (idx : Nat)
    (it : Record) (st : AnkiState) : StepResult :=
  let iid := itemId it idx
  if falsyStr it.chinese then ⟨it, st, [], false⟩
  else
    let chinese := it.chinese.getD ""
    let english := it.english.getD ""
    let pinyin := it.pinyin.getD ""
    let tags := it.tags.getD []
    match audioStage cfg env dry idx it chinese with
    | Sum.inl effs => ⟨it, st, effs, false⟩
    | Sum.inr (it1, fname, effs1) =>
      let newState := if dry then st else
        { st with media := if falsyStr it.audio_filename then st.media ++ [fname] else st.media }
      let cd : CardData := ⟨iid, chinese, english, pinyin, tags, some fname⟩
      if dry then
        ⟨{ it1 with anki_note_id := some (NoteRef.dryRun ("dry_run_" ++ iid)) },
          newState, effs1, true⟩
      else if env.cardOpOk iid then
        let r := update_or_create_card cfg cd newState
        ⟨{ it1 with anki_note_id := some (NoteRef.real r.noteId) },
          r.state, effs1 ++ r.effs, true⟩
      else
        ⟨it1, newState,
          effs1 ++ [Eff.findNotes (chineseQuery cfg.chineseField chinese)], false⟩

/-- Result of the whole loop. -/
structure RunResult where
  records : List Record
  state : AnkiState
  effs : List Eff
  updated : Bool
deriving Repr, DecidableEq

/-- The loop of `process_items`, from position `idx` on. -/
def processItemsAux (cfg : RunCfg) (env : Env) (dry : Bool) :
    Nat → List Record → AnkiState → RunResult
  | _, [], st => ⟨[], st, [], false⟩
  | idx, it :: rest, st =>
    let r := processItem cfg env dry idx it st
    let rr := processItemsAux cfg env dry (idx + 1) rest r.state
    ⟨r.record :: rr.records, rr.state, r.effs ++ rr.effs, r.didWork || rr.updated⟩

/-- `process_items` on an already-parsed item list: the loop over
`enumerate(items)` starting at index 0. -/
def process_items (cfg : RunCfg) (env : Env) (dry : Bool)
    (items : List Record) (st : AnkiState) : RunResult :=
  processItemsAux cfg env dry 0 items st

/-! ### Record Store: merge with provenance (`load_input_jsons`) -/

/-- The loop of `load_input_jsons` over the (lexicographically sorted) input
files, from running offset `idx`: concatenate the parsed arrays and record
`(src_path, start_index, end_index)` for each file. -/
def load_input_jsons_aux :
    Nat → List (String × List Record) → List Record × List (String × Nat × Nat)
  | _, [] => ([], [])
  | idx, (f, data) :: rest =>
    let start := idx
    let stop := idx + data.length
    let r := load_input_jsons_aux stop rest
    (data ++ r.1, (f, start, stop) :: r.2)

/-- `load_input_jsons`: merge the parsed file contents into one combined
list plus its provenance, starting at offset 0. -/
def load_input_jsons (files : List (String × List Record)) :
    List Record × List (String × Nat × Nat) :=
  load_input_jsons_aux 0 files

/-! ### Persistence: `write_back_results` and the tail of `process_items` -/

/-- A file-system operation performed by the persistence code. -/
inductive FileOp where
  | rename (src dst : String)
  | write (path : String) (content : List Record)
deriving Repr, DecidableEq

/-- Whether a file operation is a write. -/
def FileOp.isWrite : FileOp → Bool
  | .write _ _ => true
  | _ => false

/-- The loop of `write_back_results` over the provenance entries.
`p = Path(temp_dir) / "out"` is rebuilt identically on every iteration; the
`src` path of the entry is never used as a target. `outExists` tracks whether
`temp_dir/out` currently exists (for the backup rename). Slices follow
Python clamping semantics. -/
def write_back_aux (items : List Record) (tempDir : String) (dry : Bool) :
    List (String × Nat × Nat) → Bool → List FileOp
  | [], _ => []
  | (_src, start, stop) :: rest, outExists =>
    let piece := (items.drop start).take (stop - start)
    let p := tempDir ++ "/out"
    let ops :=
      if dry then [FileOp.write (tempDir ++ "/out.dryrun.json") piece]
      else
        (if outExists then [FileOp.rename p (tempDir ++ "/out.bak.json")] else []) ++
          [FileOp.write p piece]
    ops ++ write_back_aux items tempDir dry rest (if dry then outExists else true)

/-- `write_back_results(items, provenance, temp_dir, dry)`, with
`outExists` the initial existence of `temp_dir/out`. -/
def write_back_results (items : List Record)
    (provenance : List (String × Nat × Nat)) (tempDir : String)
    (dry outExists : Bool) : List FileOp :=
  write_back_aux items tempDir dry provenance outExists

/-- The write-back tail of `process_items` (lines 299-310): rename the input
JSON to a `.bak.json` sibling and rewrite it when `updated and not dry`,
write a `.dryrun.json` sibling when `updated and dry`, and do nothing
otherwise. `jsonStem` is the input path without its `.json` suffix. -/
def processItemsPersist (updated dry : Bool) (jsonStem : String)
    (items : List Record) : List FileOp :=
  if updated && !dry then
    [FileOp.rename (jsonStem ++ ".json") (jsonStem ++ ".bak.json"),
     FileOp.write (jsonStem ++ ".json") items]
  else if updated && dry then
    [FileOp.write (jsonStem ++ ".dryrun.json") items]
  else []

/-- The persistence file operations of one whole run, as sequenced in
`main`: the `process_items` tail on the combined temp file, then the
unconditional `write_back_results` call. -/
def runPersistOps (updated dry : Bool) (combinedStem : String)
    (items : List Record) (provenance : List (String × Nat × Nat))
    (tempDir : String) (outExists : Bool) : List FileOp :=
  processItemsPersist updated dry combinedStem items ++
    write_back_results items provenance tempDir dry outExists

/-! ### Concrete fixtures used by witnesses and counterexamples -/

/-- A concrete configuration. -/
def cfg0 : RunCfg := ⟨"DeckA", "ModelA", "Chinese", "English", "Pinyin", "Sound", "/t"⟩

/-- All external calls succeed, primary TTS backend available. -/
def envAll : Env := ⟨true, fun _ => true, fun _ => true, fun _ => true⟩

/-- An empty remote store. -/
def st0 : AnkiState := ⟨[], 1000, []⟩

/-- A fully-processed record: both `audio_filename` and `anki_note_id` set. -/
def recFull : Record :=
  ⟨some "s1", some "nihao", some "hello", some "", some [], some "a.mp3",
    some (NoteRef.real 7)⟩

/-- A pending record: audio and remote link both absent. -/
def recPend : Record :=
  ⟨some "s1", some "nihao", some "hello", some "", some [], none, none⟩

/-- A record with no `chinese` field (permanently skipped). -/
def recNC : Record := ⟨some "s9", none, none, none, none, none, none⟩

/-- Sum of the lengths of the first `k` input files' record lists: the
running `idx` of `load_input_jsons` after `k` files. -/
def presum (files : List (String × List Record)) (k : Nat) : Nat :=
  ((files.take k).map (fun fd => fd.2.length)).sum

/-- A concrete pair of input files for the round-trip witness. -/
def files0 : List (String × List Record) := [("a", [recNC]), ("b", [recFull, recPend])]

/-- A `storeMediaFile` call. -/
def Eff.isStoreMedia : Eff → Bool
  | .storeMedia _ => true
  | _ => false

/-- The field map the specification says a created or updated entry gets:
content, translation, pinyin and identifier, plus the sound reference when
audio is present. Stated as a plain list; agreement with the dict-built
`buildFields` holds when the configured field names are distinct. -/
def specFields (cfg : RunCfg) (cd : CardData) : List (String × String) :=
  [(cfg.chineseField, cd.chinese), (cfg.englishField, cd.english),
   (cfg.pinyinField, cd.pinyin), ("ID", cd.id)] ++
    (match cd.audio_filename with
     | some f => if f == "" then [] else [(cfg.soundField, "[sound:" ++ f ++ "]")]
     | none => [])

/-- Content-only resolution, written out as the amended claim describes it:
look up by content; update the found note's fields and tags, or create a new
note carrying `specFields` and the record's tags. -/
def updateOrCreateSpec (cfg : RunCfg) (cd : CardData) (st : AnkiState) :
    CardOpResult :=
  let lookupEffs :=
    [Eff.findNotes (chineseQuery cfg.chineseField cd.chinese)] ++
      (if (findNotesByField st cfg.chineseField cd.chinese).isEmpty then []
       else [Eff.notesInfo])
  match find_existing_note_by_content st cd.chinese cd.english cfg.deckName
      cfg.chineseField cfg.englishField with
  | some nid =>
    { noteId := nid,
      message := "Updated existing card: " ++ cd.id,
      state := applyNoteUpdate st nid (specFields cfg cd) cd.tags,
      effs := lookupEffs ++ [Eff.updateNote nid] }
  | none =>
    { noteId := st.nextId,
      message := "Created new card: " ++ cd.id ++ " (Note ID: " ++
        toString st.nextId ++ ")",
      state := applyAddNote st cfg.deckName cfg.modelName (specFields cfg cd) cd.tags,
      effs := lookupEffs ++ [Eff.addNote st.nextId] }

/-- A remote note whose custom `ID` field matches local record `s1`, but
whose content fields differ from the record's current content. -/
def note7 : AnkiNote :=
  ⟨7, "DeckA", "ModelA", [("ID", "s1"), ("Chinese", "X"), ("English", "Y")], []⟩

/-- A store containing only `note7`. -/
def stC3 : AnkiState := ⟨[note7], 100, []⟩

/-- A card whose id matches `note7`'s `ID` field while its content does
not. -/
def cdC3 : CardData := ⟨"s1", "Z", "W", "", [], none⟩

/-- A card with audio attached, for the field-map witness. -/
def cdS : CardData := ⟨"s2", "ni", "you", "nǐ", ["t1"], some "a.mp3"⟩

/-- An environment whose TTS backend fails exactly on the text `"tfail"`. -/
def envC6 : Env := ⟨true, fun t => !(t == "tfail"), fun _ => true, fun _ => true⟩

/-- A pending record whose TTS call will fail under `envC6`. -/
def recT2 : Record := ⟨some "s2", some "tfail", some "e2", none, none, none, none⟩

/-- A second pending record that succeeds under `envC6`. -/
def recT3 : Record := ⟨some "s3", some "zaijian", some "e3", none, none, none, none⟩

/-- Three records: the middle one fails TTS under `envC6`, its neighbours
succeed. -/
def itemsC6 : List Record := [recPend, recT2, recT3]

/-! ### Claim C9 -/

/-- Claim C9: the audio filename `safe_filename(item_id + "_" + chinese[:20])`
is a pure, deterministic function of the record id and the first 20
characters of the Chinese text: equal ids and equal 20-character prefixes
always give the identical filename, so re-running without change reuses the
same media name instead of producing a duplicate. -/
theorem safe_filename_deterministic (it1 it2 : Record) (idx1 idx2 : Nat)
    (c1 c2 : String) (hid : itemId it1 idx1 = itemId it2 idx2)
    (hpre : c1.take 20 = c2.take 20) :
    safe_filename (itemId it1 idx1 ++ "_" ++ c1.take 20) =
      safe_filename (itemId it2 idx2 ++ "_" ++ c2.take 20) := by
  rw [hid, hpre]

/-- Witness for `safe_filename_deterministic`: two records that share the id
`s1` and Chinese text prefix get the same filename across different runs. -/
theorem safe_filename_deterministic_witness :
    safe_filename (itemId recPend 0 ++ "_" ++ "nihao".take 20) =
      safe_filename (itemId recFull 5 ++ "_" ++ "nihao".take 20) :=
  safe_filename_deterministic recPend recFull 0 5 "nihao" "nihao" (by decide) rfl

/-! ### Claim C8 -/

/-- The scan of `find_existing_note_by_content` over the `notesInfo` results
agrees with `List.find?` followed by projecting the note id. -/
theorem firstEnglishMatch_eq_find (ef et : String) (l : List AnkiNote) :
    firstEnglishMatch ef et l =
      (l.find? (fun n => (getField n ef).trim == et.trim)).map AnkiNote.noteId := by
  induction l with
  | nil => rfl
  | cons n rest ih =>
    cases hb : ((getField n ef).trim == et.trim) with
    | true => simp [firstEnglishMatch, List.find?_cons_of_pos _ hb, hb]
    | false =>
      rw [List.find?_cons_of_neg _ (by simp [hb])]
      simp only [firstEnglishMatch, hb]
      exact ih

/-- Claim C8: `find_existing_note_by_content` returns exactly the id of the
first remote note (in store order) whose Chinese field equals the given text
— the notes the quoted `findNotes` query selects — and whose English field
equals the given English text after stripping surrounding whitespace from
both sides, and `none` when no such note exists. -/
theorem find_by_content_first_match (st : AnkiState) (ct et dn cf ef : String) :
    find_existing_note_by_content st ct et dn cf ef =
      ((st.notes.filter (fun n => getField n cf == ct)).find?
        (fun n => (getField n ef).trim == et.trim)).map AnkiNote.noteId := by
  show (if (findNotesByField st cf ct).isEmpty then none
    else firstEnglishMatch ef et (findNotesByField st cf ct)) = _
  by_cases h : (findNotesByField st cf ct).isEmpty
  · rw [if_pos h]
    rw [show st.notes.filter (fun n => getField n cf == ct) = [] from
      List.isEmpty_iff.mp h]
    rfl
  · rw [if_neg h]
    exact firstEnglishMatch_eq_find ef et _

/-! ### Claim C2 -/

/-- Claim C2: in a real run on two input files, `write_back_results` never
touches the provenance entries' source paths. Both pieces are written to the
single fixed path `temp_dir/out` (the second write first renaming the first
away as the backup), contradicting the per-source-file write-back described
by the function's own docstring and the specification. -/
theorem write_back_ignores_source_paths :
    write_back_results [recNC, recFull]
        [("/in/a.json", 0, 1), ("/in/b.json", 1, 2)] "/t" false false =
      [FileOp.write "/t/out" [recNC], FileOp.rename "/t/out" "/t/out.bak.json",
       FileOp.write "/t/out" [recFull]] := by
  rfl

/-! ### Claim C4 -/

/-- Claim C4 counterexample: a sequence of length 1 against a provenance
entry of range length 2. `write_back_results` raises nothing: it completes
normally and writes the silently clamped slice. -/
theorem write_back_no_length_check :
    write_back_results [recNC] [("f", 0, 2)] "/t" false false =
      [FileOp.write "/t/out" [recNC]] ∧
      ([recNC] : List Record).length ≠ 2 - 0 :=
  ⟨rfl, by decide⟩

/-- Claim C4 (amended): the write-back slicing performs no length
validation at all — for every sequence and provenance list, matching or not,
it completes and emits exactly one write per provenance entry whose content
is the Python-clamped slice `items[start:stop]`. -/
theorem write_back_writes_are_clamped_slices (items : List Record)
    (prov : List (String × Nat × Nat)) (tempDir : String) (dry ex : Bool) :
    (write_back_results items prov tempDir dry ex).filter FileOp.isWrite =
      prov.map (fun e =>
        FileOp.write (if dry then tempDir ++ "/out.dryrun.json" else tempDir ++ "/out")
          ((items.drop e.2.1).take (e.2.2 - e.2.1))) := by
  suffices h : ∀ (ps : List (String × Nat × Nat)) (b : Bool),
      (write_back_aux items tempDir dry ps b).filter FileOp.isWrite =
        ps.map (fun e =>
          FileOp.write (if dry then tempDir ++ "/out.dryrun.json" else tempDir ++ "/out")
            ((items.drop e.2.1).take (e.2.2 - e.2.1))) by
    exact h prov ex
  intro ps
  induction ps with
  | nil => intro b; rfl
  | cons e rest ih =>
    intro b
    obtain ⟨src, start, stop⟩ := e
    show (List.filter FileOp.isWrite _) = _
    unfold write_back_aux
    rw [List.filter_append]
    cases dry with
    | true => simp [FileOp.isWrite, ih]
    | false =>
      cases b with
      | true => simp [FileOp.isWrite, ih]
      | false => simp [FileOp.isWrite, ih]

/-! ### Claim C5 -/

/-- Claim C5 counterexample: a real run in which no record changed (the only
record has no `chinese` field, so `updated` stays false). The `process_items`
tail writes nothing, but the run's persistence phase still performs file
I/O: `write_back_results`, invoked unconditionally by `main`, writes an
output file for the provenance entry. -/
theorem no_change_still_writes :
    (process_items cfg0 envAll false [recNC] st0).updated = false ∧
      runPersistOps (process_items cfg0 envAll false [recNC] st0).updated false
          "/t/combined" (process_items cfg0 envAll false [recNC] st0).records
          [("/in/a.json", 0, 1)] "/t" false =
        [FileOp.write "/t/out" [recNC]] ∧
      (FileOp.write "/t/out" [recNC] :: ([] : List FileOp)) ≠ [] :=
  ⟨rfl, rfl, by decide⟩

/-- Claim C5 (amended): when no record changed, the write-back tail of
`process_items` performs no file I/O — no backup, no in-place write, no
dry-run side file — but `write_back_results`, which `main` calls
unconditionally after it, still writes one output file per provenance
entry, so the run as a whole is not free of file I/O. -/
theorem no_change_tail_noop_but_write_back_writes
    (dry : Bool) (stem : String) (items : List Record)
    (prov : List (String × Nat × Nat)) (tempDir : String) (ex : Bool)
    (hprov : prov ≠ []) :
    processItemsPersist false dry stem items = [] ∧
      write_back_results items prov tempDir dry ex ≠ [] := by
  refine ⟨by simp [processItemsPersist], ?_⟩
  obtain ⟨e, rest, rfl⟩ := List.exists_cons_of_ne_nil hprov
  obtain ⟨src, start, stop⟩ := e
  show write_back_aux items tempDir dry ((src, start, stop) :: rest) ex ≠ []
  unfold write_back_aux
  cases dry with
  | true => simp
  | false => cases ex with
    | true => simp
    | false => simp

/-- Witness for `no_change_tail_noop_but_write_back_writes` at a concrete
run with one provenance entry. -/
theorem no_change_tail_noop_but_write_back_writes_witness :
    processItemsPersist false false "/t/c" [recNC] = [] ∧
      write_back_results [recNC] [("f", 0, 1)] "/t" false false ≠ [] :=
  no_change_tail_noop_but_write_back_writes false "/t/c" [recNC]
    [("f", 0, 1)] "/t" false (by decide)

/-! ### Claim C7 -/

/-- `presum` over a cons, one step in. -/
theorem presum_cons (fd : String × List Record)
    (rest : List (String × List Record)) (k : Nat) :
    presum (fd :: rest) (k + 1) = fd.2.length + presum rest k := by
  unfold presum
  rw [List.take_succ_cons]
  simp

/-- The combined list built by the `load_input_jsons` loop is the
concatenation of the files' record lists, independent of the running
offset. -/
theorem load_aux_combined (files : List (String × List Record)) (idx : Nat) :
    (load_input_jsons_aux idx files).1 = (files.map (fun fd => fd.2)).flatten := by
  induction files generalizing idx with
  | nil => rfl
  | cons fd rest ih => simp [load_input_jsons_aux, ih]

/-- One provenance entry per input file. -/
theorem load_aux_prov_length (files : List (String × List Record)) (idx : Nat) :
    (load_input_jsons_aux idx files).2.length = files.length := by
  induction files generalizing idx with
  | nil => rfl
  | cons fd rest ih => simp [load_input_jsons_aux, ih]

/-- The `k`-th provenance entry built by the loop: the `k`-th file's path
with the running offsets around it. -/
theorem load_aux_prov_get (files : List (String × List Record)) (idx k : Nat)
    (name : String) (data : List Record) (hk : files[k]? = some (name, data)) :
    (load_input_jsons_aux idx files).2[k]? =
      some (name, idx + presum files k, idx + presum files (k + 1)) := by
  induction files generalizing idx k with
  | nil => simp at hk
  | cons fd rest ih =>
    cases k with
    | zero =>
      rw [List.getElem?_cons_zero] at hk
      cases hk
      simp [load_input_jsons_aux, presum]
    | succ k =>
      rw [List.getElem?_cons_succ] at hk
      rw [show (load_input_jsons_aux idx (fd :: rest)).2 =
        (fd.1, idx, idx + fd.2.length) ::
          (load_input_jsons_aux (idx + fd.2.length) rest).2 from rfl]
      rw [List.getElem?_cons_succ, ih (idx + fd.2.length) k hk,
        presum_cons, presum_cons]
      rw [Nat.add_assoc, Nat.add_assoc]

/-- Slicing the concatenation at the presum offsets recovers the `k`-th
file's records. -/
theorem flatten_presum_slice (files : List (String × List Record)) (k : Nat)
    (name : String) (data : List Record) (hk : files[k]? = some (name, data)) :
    (((files.map (fun fd => fd.2)).flatten.drop (presum files k)).take
        data.length = data) := by
  induction files generalizing k with
  | nil => simp at hk
  | cons fd rest ih =>
    cases k with
    | zero =>
      rw [List.getElem?_cons_zero] at hk
      cases hk
      show ((data ++ _).drop (presum _ 0)).take data.length = data
      rw [show presum ((name, data) :: rest) 0 = 0 from rfl, List.drop_zero]
      exact List.take_left data _
    | succ k =>
      rw [List.getElem?_cons_succ] at hk
      show ((fd.2 ++ _).drop (presum (fd :: rest) (k + 1))).take data.length = data
      rw [presum_cons, List.drop_append]
      exact ih k hk

/-- Claim C7: `load_input_jsons` produces provenance that is contiguous,
non-overlapping and exactly covers the merged sequence — entry `k` runs from
`presum files k` to `presum files (k+1)`, entry 0 starts at 0, consecutive
entries abut, and the final offset is the merged length — and slicing the
merged sequence by those offsets reconstructs each file's records
identically, in content, count and order. -/
theorem provenance_round_trip (files : List (String × List Record)) :
    (load_input_jsons files).2.length = files.length ∧
      (load_input_jsons files).1.length = presum files files.length ∧
      presum files 0 = 0 ∧
      (∀ k (name : String) (data : List Record), files[k]? = some (name, data) →
        (load_input_jsons files).2[k]? =
          some (name, presum files k, presum files (k + 1)) ∧
        presum files (k + 1) = presum files k + data.length ∧
        ((load_input_jsons files).1.drop (presum files k)).take data.length
          = data) := by
  refine ⟨load_aux_prov_length files 0, ?_, rfl, ?_⟩
  · show (load_input_jsons_aux 0 files).1.length = _
    rw [load_aux_combined, List.length_flatten, List.map_map]
    unfold presum
    rw [List.take_length]
    rfl
  · intro k name data hk
    refine ⟨?_, ?_, ?_⟩
    · have h := load_aux_prov_get files 0 k name data hk
      simpa using h
    · unfold presum
      rw [List.take_succ, hk]
      simp
    · show ((load_input_jsons_aux 0 files).1.drop _).take _ = _
      rw [load_aux_combined]
      exact flatten_presum_slice files k name data hk

/-- Witness for `provenance_round_trip`: the second file of a two-file merge
is reconstructed exactly. -/
theorem provenance_round_trip_witness :
    (load_input_jsons files0).2[1]? =
      some ("b", presum files0 1, presum files0 2) ∧
      presum files0 2 = presum files0 1 + 2 ∧
      ((load_input_jsons files0).1.drop (presum files0 1)).take 2 =
        [recFull, recPend] :=
  (provenance_round_trip files0).2.2.2 1 "b" [recFull, recPend] (by decide)

/-! ### Claim C3 -/

/-- Inserting a fresh key into a dict appends it. -/
theorem dinsert_of_not_key (m : List (String × String)) (k v : String)
    (h : m.any (fun kv => kv.1 == k) = false) : dinsert m k v = m ++ [(k, v)] := by
  unfold dinsert
  rw [h]
  rfl

/-- With pairwise-distinct configured field names, the dict built by
`update_or_create_card` is exactly the specification's field list. -/
theorem buildFields_eq_specFields (cfg : RunCfg) (cd : CardData)
    (hce : cfg.chineseField ≠ cfg.englishField)
    (hcp : cfg.chineseField ≠ cfg.pinyinField)
    (hep : cfg.englishField ≠ cfg.pinyinField)
    (hci : cfg.chineseField ≠ "ID") (hei : cfg.englishField ≠ "ID")
    (hpi : cfg.pinyinField ≠ "ID")
    (hcs : cfg.chineseField ≠ cfg.soundField)
    (hes : cfg.englishField ≠ cfg.soundField)
    (hps : cfg.pinyinField ≠ cfg.soundField)
    (his : ("ID" : String) ≠ cfg.soundField) :
    buildFields cfg cd = specFields cfg cd := by
  have b1 : dinsert [] cfg.chineseField cd.chinese = [(cfg.chineseField, cd.chinese)] := rfl
  have b2 := dinsert_of_not_key [(cfg.chineseField, cd.chinese)] cfg.englishField
    cd.english (by simp [beq_eq_false_iff_ne, hce])
  have b3 := dinsert_of_not_key
    ([(cfg.chineseField, cd.chinese)] ++ [(cfg.englishField, cd.english)])
    cfg.pinyinField cd.pinyin (by simp [beq_eq_false_iff_ne, hcp, hep])
  have b4 := dinsert_of_not_key
    ([(cfg.chineseField, cd.chinese)] ++ [(cfg.englishField, cd.english)] ++
      [(cfg.pinyinField, cd.pinyin)]) "ID" cd.id
    (by simp [beq_eq_false_iff_ne, hci, hei, hpi])
  have b5 := dinsert_of_not_key
    ([(cfg.chineseField, cd.chinese)] ++ [(cfg.englishField, cd.english)] ++
      [(cfg.pinyinField, cd.pinyin)] ++ [(("ID" : String), cd.id)])
    cfg.soundField ("[sound:" ++ (cd.audio_filename.getD "") ++ "]")
    (by simp [beq_eq_false_iff_ne, hcs, hes, hps, his])
  unfold buildFields specFields
  rw [b1, b2, b3, b4]
  cases hau : cd.audio_filename with
  | none => simp
  | some f =>
    cases hf : (f == "") with
    | true => simp [hf]
    | false =>
      have b5' := b5
      rw [show cd.audio_filename.getD "" = f by rw [hau]; rfl] at b5'
      simp only [hf]
      rw [b5']
      simp

/-- Claim C3 counterexample: the identifier mapping (`build_id_mapping`)
would resolve card `s1` to remote note 7, but `update_or_create_card` never
consults it — resolution is content-only, the content lookup misses because
the record's text changed, and a brand-new note is created instead of
updating note 7. -/
theorem update_or_create_skips_id_lookup :
    List.lookup "s1" (build_id_mapping stC3) = some 7 ∧
      find_existing_note_by_content stC3 "Z" "W" "DeckA" "Chinese" "English" = none ∧
      (update_or_create_card cfg0 cdC3 stC3).noteId = 100 ∧
      (update_or_create_card cfg0 cdC3 stC3).state.notes.length = 2 ∧
      Eff.addNote 100 ∈ (update_or_create_card cfg0 cdC3 stC3).effs := by
  refine ⟨rfl, rfl, rfl, rfl, ?_⟩
  decide

/-- Claim C3 (amended): `update_or_create_card` resolves remote linkage by
content only — `find_existing_note_by_content`; the identifier lookup
(`build_id_mapping`) exists in the source but is never invoked. When the
content lookup finds a note, that note is updated with the built fields and
the record's tags; otherwise a new note is created with fields
{content, translation, pinyin, identifier} plus the sound reference when
audio is present, and the record's tags. With distinct configured field
names the call agrees exactly with that content-only description. -/
theorem update_or_create_content_only (cfg : RunCfg) (cd : CardData)
    (st : AnkiState)
    (hce : cfg.chineseField ≠ cfg.englishField)
    (hcp : cfg.chineseField ≠ cfg.pinyinField)
    (hep : cfg.englishField ≠ cfg.pinyinField)
    (hci : cfg.chineseField ≠ "ID") (hei : cfg.englishField ≠ "ID")
    (hpi : cfg.pinyinField ≠ "ID")
    (hcs : cfg.chineseField ≠ cfg.soundField)
    (hes : cfg.englishField ≠ cfg.soundField)
    (hps : cfg.pinyinField ≠ cfg.soundField)
    (his : ("ID" : String) ≠ cfg.soundField) :
    update_or_create_card cfg cd st = updateOrCreateSpec cfg cd st := by
  have hbf := buildFields_eq_specFields cfg cd hce hcp hep hci hei hpi hcs hes hps his
  unfold update_or_create_card updateOrCreateSpec
  rw [hbf]

/-- Witness for `update_or_create_content_only`: the concrete configuration
with its four distinct field names, on a card carrying audio. -/
theorem update_or_create_content_only_witness :
    update_or_create_card cfg0 cdS stC3 = updateOrCreateSpec cfg0 cdS stC3 :=
  update_or_create_content_only cfg0 cdS stC3 (by decide) (by decide) (by decide)
    (by decide) (by decide) (by decide) (by decide) (by decide) (by decide)
    (by decide)

/-! ### Claim C1 -/

/-- `update_or_create_card` performs no TTS call and no media upload, and
performs exactly one note mutation (update or create), whatever the card and
store. -/
theorem update_or_create_effs_profile (cfg : RunCfg) (cd : CardData)
    (st : AnkiState) :
    (update_or_create_card cfg cd st).effs.countP Eff.isTts = 0 ∧
      (update_or_create_card cfg cd st).effs.countP Eff.isStoreMedia = 0 ∧
      (update_or_create_card cfg cd st).effs.countP Eff.isNoteMutation = 1 := by
  unfold update_or_create_card
  cases h : find_existing_note_by_content st cd.chinese cd.english cfg.deckName
      cfg.chineseField cfg.englishField with
  | none =>
    cases h2 : (findNotesByField st cfg.chineseField cd.chinese).isEmpty with
    | true => simp [h, h2, List.countP_cons, List.countP_append,
        Eff.isTts, Eff.isStoreMedia, Eff.isNoteMutation]
    | false => simp [h, h2, List.countP_cons, List.countP_append,
        Eff.isTts, Eff.isStoreMedia, Eff.isNoteMutation]
  | some nid =>
    cases h2 : (findNotesByField st cfg.chineseField cd.chinese).isEmpty with
    | true => simp [h, h2, List.countP_cons, List.countP_append,
        Eff.isTts, Eff.isStoreMedia, Eff.isNoteMutation]
    | false => simp [h, h2, List.countP_cons, List.countP_append,
        Eff.isTts, Eff.isStoreMedia, Eff.isNoteMutation]

/-- A record that already carries audio makes, in a real run with the card
call succeeding, no TTS call and no media upload but exactly one note
mutation. -/
theorem processItem_audio_present_profile (cfg : RunCfg) (env : Env)
    (idx : Nat) (it : Record) (st : AnkiState)
    (hch : falsyStr it.chinese = false) (hau : falsyStr it.audio_filename = false)
    (hco : env.cardOpOk (itemId it idx) = true) :
    (processItem cfg env false idx it st).effs.countP Eff.isTts = 0 ∧
      (processItem cfg env false idx it st).effs.countP Eff.isStoreMedia = 0 ∧
      (processItem cfg env false idx it st).effs.countP Eff.isNoteMutation = 1 := by
  unfold processItem audioStage
  simp only [hch, hau, hco, Bool.false_eq_true, if_false, if_true,
    Bool.true_eq_false, ite_false, ite_true]
  exact update_or_create_effs_profile cfg _ _

/-- Claim C1 counterexample: re-running the pipeline on a single fully
processed record (`audio_filename` and `anki_note_id` both set) makes no TTS
call and no media upload, but still performs one remote note mutation — the
record is not skipped, so the second run is not free of remote-store
mutations. -/
theorem rerun_fully_processed_still_mutates :
    (process_items cfg0 envAll false [recFull] st0).effs.countP Eff.isTts = 0 ∧
      (process_items cfg0 envAll false [recFull] st0).effs.countP Eff.isStoreMedia = 0 ∧
      (process_items cfg0 envAll false [recFull] st0).effs.countP Eff.isNoteMutation = 1 ∧
      (process_items cfg0 envAll false [recFull] st0).effs.countP Eff.isNoteMutation ≠ 0 :=
  ⟨rfl, rfl, rfl, by decide⟩

/-- Claim C1 (amended): on a second run over fully-processed records (every
record with `chinese` and `audio_filename` both set) the reconciler makes
zero TTS calls and zero media uploads, but it does not treat the records as
terminal: it performs exactly one remote note mutation (update or create)
per record on every run. -/
theorem second_run_no_tts_but_still_mutates (cfg : RunCfg) (env : Env)
    (items : List Record) (st : AnkiState)
    (hall : ∀ it ∈ items,
      falsyStr it.chinese = false ∧ falsyStr it.audio_filename = false)
    (hco : ∀ s, env.cardOpOk s = true) :
    (process_items cfg env false items st).effs.countP Eff.isTts = 0 ∧
      (process_items cfg env false items st).effs.countP Eff.isStoreMedia = 0 ∧
      (process_items cfg env false items st).effs.countP Eff.isNoteMutation
        = items.length := by
  suffices h : ∀ (its : List Record),
      (∀ it ∈ its, falsyStr it.chinese = false ∧ falsyStr it.audio_filename = false) →
      ∀ (idx : Nat) (st' : AnkiState),
        (processItemsAux cfg env false idx its st').effs.countP Eff.isTts = 0 ∧
        (processItemsAux cfg env false idx its st').effs.countP Eff.isStoreMedia = 0 ∧
        (processItemsAux cfg env false idx its st').effs.countP Eff.isNoteMutation
          = its.length by
    exact h items hall 0 st
  intro its
  induction its with
  | nil => intro _ idx st'; exact ⟨rfl, rfl, rfl⟩
  | cons a rest ih =>
    intro hits idx st'
    have ha := hits a (List.mem_cons_self a rest)
    have hstep := processItem_audio_present_profile cfg env idx a st' ha.1 ha.2
      (hco (itemId a idx))
    have hrest := ih (fun it hm => hits it (List.mem_cons_of_mem a hm)) (idx + 1)
      ((processItem cfg env false idx a st').state)
    rw [show processItemsAux cfg env false idx (a :: rest) st' =
      ⟨(processItem cfg env false idx a st').record ::
          (processItemsAux cfg env false (idx + 1) rest
            (processItem cfg env false idx a st').state).records,
        (processItemsAux cfg env false (idx + 1) rest
          (processItem cfg env false idx a st').state).state,
        (processItem cfg env false idx a st').effs ++
          (processItemsAux cfg env false (idx + 1) rest
            (processItem cfg env false idx a st').state).effs,
        (processItem cfg env false idx a st').didWork ||
          (processItemsAux cfg env false (idx + 1) rest
            (processItem cfg env false idx a st').state).updated⟩ from rfl]
    refine ⟨?_, ?_, ?_⟩
    · show ((processItem cfg env false idx a st').effs ++ _).countP Eff.isTts = 0
      rw [List.countP_append, hstep.1, hrest.1]
    · show ((processItem cfg env false idx a st').effs ++ _).countP Eff.isStoreMedia = 0
      rw [List.countP_append, hstep.2.1, hrest.2.1]
    · show ((processItem cfg env false idx a st').effs ++ _).countP Eff.isNoteMutation
        = (a :: rest).length
      rw [List.countP_append, hstep.2.2, hrest.2.2, List.length_cons]
      omega

/-- Witness for `second_run_no_tts_but_still_mutates` on one fully-processed
record against the empty store. -/
theorem second_run_no_tts_but_still_mutates_witness :
    (process_items cfg0 envAll false [recFull] st0).effs.countP Eff.isTts = 0 ∧
      (process_items cfg0 envAll false [recFull] st0).effs.countP Eff.isStoreMedia = 0 ∧
      (process_items cfg0 envAll false [recFull] st0).effs.countP Eff.isNoteMutation
        = ([recFull] : List Record).length :=
  second_run_no_tts_but_still_mutates cfg0 envAll [recFull] st0 (by decide)
    (fun _ => rfl)

/-! ### Claim C6 -/

/-- `safe_filename` never returns the empty string (it starts with
`tts_`). -/
theorem safe_filename_beq_empty (s : String) : (safe_filename s == "") = false := by
  rw [beq_eq_false_iff_ne]
  intro h
  have hl := congrArg String.length h
  rw [show safe_filename s = "tts_" ++ String.mk ((s.data.filter pyAlnum).take 12)
      ++ "_" ++ (sha1hex (utf8Bytes s)).take 10 ++ ".mp3" from rfl] at hl
  rw [String.length_append, String.length_append, String.length_append,
    String.length_append] at hl
  rw [show ("tts_" : String).length = 4 from rfl,
    show ("" : String).length = 0 from rfl] at hl
  omega

/-- A real-run iteration whose TTS call fails leaves the record, the store
and the `updated` flag untouched. -/
theorem processItem_tts_fail (cfg : RunCfg) (env : Env) (idx : Nat)
    (it : Record) (st : AnkiState)
    (hau : falsyStr it.audio_filename = true) (hch : falsyStr it.chinese = false)
    (htts : env.ttsOk (it.chinese.getD "") = false) :
    (processItem cfg env false idx it st).record = it ∧
      (processItem cfg env false idx it st).state = st ∧
      (processItem cfg env false idx it st).didWork = false := by
  unfold processItem audioStage
  simp [hch, hau, htts]

/-- A real-run iteration whose media upload fails leaves the record, the
store and the `updated` flag untouched — in particular `audio_filename` is
not written. -/
theorem processItem_store_fail (cfg : RunCfg) (env : Env) (idx : Nat)
    (it : Record) (st : AnkiState)
    (hau : falsyStr it.audio_filename = true) (hch : falsyStr it.chinese = false)
    (hst : env.storeOk
      (safe_filename (itemId it idx ++ "_" ++ (it.chinese.getD "").take 20)) = false) :
    (processItem cfg env false idx it st).record = it ∧
      (processItem cfg env false idx it st).state = st ∧
      (processItem cfg env false idx it st).didWork = false := by
  unfold processItem audioStage
  cases htts : env.ttsOk (it.chinese.getD "") with
  | false => simp [hch, hau, htts]
  | true => simp [hch, hau, htts, hst]

/-- In a real run, a record that started without audio carries a non-empty
`audio_filename` afterwards only if the media upload for that filename
succeeded, and the upload call is among the run's effects. -/
theorem processItem_audio_only_after_upload (cfg : RunCfg) (env : Env)
    (idx : Nat) (it : Record) (st : AnkiState) (f : String)
    (hau : falsyStr it.audio_filename = true)
    (hf : (processItem cfg env false idx it st).record.audio_filename = some f)
    (hne : (f == "") = false) :
    env.storeOk f = true ∧
      Eff.storeMedia f ∈ (processItem cfg env false idx it st).effs := by
  cases hch : falsyStr it.chinese with
  | true =>
    unfold processItem at hf
    simp [hch] at hf
    rw [hf] at hau
    simp [falsyStr] at hau
    rw [hau] at hne
    simp at hne
  | false =>
    unfold processItem audioStage at hf ⊢
    cases htts : env.ttsOk (it.chinese.getD "") with
    | false =>
      simp [hch, hau, htts] at hf
      rw [hf] at hau
      simp [falsyStr] at hau
      rw [hau] at hne
      simp at hne
    | true =>
      cases hst : env.storeOk
          (safe_filename (itemId it idx ++ "_" ++ (it.chinese.getD "").take 20)) with
      | false =>
        simp [hch, hau, htts, hst] at hf
        rw [hf] at hau
        simp [falsyStr] at hau
        rw [hau] at hne
        simp at hne
      | true =>
        cases hco : env.cardOpOk (itemId it idx) with
        | true =>
          simp [hch, hau, htts, hst, hco] at hf ⊢
          exact ⟨hf ▸ hst, Or.inl hf.symm⟩
        | false =>
          simp [hch, hau, htts, hst, hco] at hf ⊢
          exact ⟨hf ▸ hst, hf.symm⟩

/-- A real-run iteration with its external calls succeeding completes the
record: audio present and a real remote link set. -/
theorem processItem_success (cfg : RunCfg) (env : Env) (idx : Nat)
    (it : Record) (st : AnkiState)
    (hch : falsyStr it.chinese = false)
    (haud : falsyStr it.audio_filename = true →
      env.ttsOk (it.chinese.getD "") = true ∧
      env.storeOk
        (safe_filename (itemId it idx ++ "_" ++ (it.chinese.getD "").take 20)) = true)
    (hco : env.cardOpOk (itemId it idx) = true) :
    falsyStr (processItem cfg env false idx it st).record.audio_filename = false ∧
      ∃ n, (processItem cfg env false idx it st).record.anki_note_id =
        some (NoteRef.real n) := by
  unfold processItem audioStage
  cases hau : falsyStr it.audio_filename with
  | true =>
    obtain ⟨h1, h2⟩ := haud hau
    simp only [hch, hau, h1, h2, hco]
    simp [falsyStr, safe_filename_beq_empty]
  | false =>
    simp only [hch, hau, hco]
    simp [hau]

/-- The loop preserves the record count. -/
theorem processItemsAux_length (cfg : RunCfg) (env : Env) (dry : Bool)
    (items : List Record) :
    ∀ (idx : Nat) (st : AnkiState),
      (processItemsAux cfg env dry idx items st).records.length = items.length := by
  induction items with
  | nil => intro idx st; rfl
  | cons a rest ih =>
    intro idx st
    show ((processItem cfg env dry idx a st).record :: _).length = _
    rw [List.length_cons, ih]
    rfl

/-- The `k`-th output record of the loop is the result of running
`processItem` on the `k`-th input at global index `idx + k` (for some
intermediate store), and that iteration's effects all appear among the
loop's effects. -/
theorem processItemsAux_get (cfg : RunCfg) (env : Env) (dry : Bool)
    (items : List Record) :
    ∀ (idx : Nat) (st : AnkiState) (k : Nat) (it : Record), items[k]? = some it →
      ∃ st', (processItemsAux cfg env dry idx items st).records[k]? =
          some (processItem cfg env dry (idx + k) it st').record ∧
        ∀ e ∈ (processItem cfg env dry (idx + k) it st').effs,
          e ∈ (processItemsAux cfg env dry idx items st).effs := by
  induction items with
  | nil => intro idx st k it hk; simp at hk
  | cons a rest ih =>
    intro idx st k it hk
    cases k with
    | zero =>
      rw [List.getElem?_cons_zero] at hk
      cases hk
      refine ⟨st, ?_, ?_⟩
      · show ((processItem cfg env dry idx a st).record :: _)[0]? = _
        rw [List.getElem?_cons_zero, Nat.add_zero]
      · intro e he
        show e ∈ (processItem cfg env dry idx a st).effs ++ _
        exact List.mem_append.mpr (Or.inl he)
    | succ k =>
      rw [List.getElem?_cons_succ] at hk
      obtain ⟨st', h1, h2⟩ := ih (idx + 1)
        ((processItem cfg env dry idx a st).state) k it hk
      rw [show idx + 1 + k = idx + (k + 1) from by omega] at h1 h2
      refine ⟨st', ?_, ?_⟩
      · show ((processItem cfg env dry idx a st).record :: _)[k + 1]? = _
        rw [List.getElem?_cons_succ]
        exact h1
      · intro e he
        show e ∈ (processItem cfg env dry idx a st).effs ++ _
        exact List.mem_append.mpr (Or.inr (h2 e he))

/-- Claim C6: in a real run, a record whose TTS synthesis or media upload
fails is left exactly as it was (`audio_filename` stays absent, nothing
partial written) and the loop continues; `audio_filename` appears on an
initially-audio-less record only together with a successful upload of that
very filename; and any record whose own external calls succeed completes
(audio set, real remote link set) regardless of the other records'
failures — so the neighbours of a failing record still finish in the same
run. -/
theorem partial_failure_isolation (cfg : RunCfg) (env : Env)
    (items : List Record) (st : AnkiState) :
    (process_items cfg env false items st).records.length = items.length ∧
    (∀ (k : Nat) (it : Record), items[k]? = some it →
      falsyStr it.audio_filename = true → falsyStr it.chinese = false →
      env.ttsOk (it.chinese.getD "") = false →
      (process_items cfg env false items st).records[k]? = some it) ∧
    (∀ (k : Nat) (it : Record), items[k]? = some it →
      falsyStr it.audio_filename = true → falsyStr it.chinese = false →
      env.storeOk
        (safe_filename (itemId it k ++ "_" ++ (it.chinese.getD "").take 20)) = false →
      (process_items cfg env false items st).records[k]? = some it) ∧
    (∀ (k : Nat) (it out : Record) (f : String), items[k]? = some it →
      (process_items cfg env false items st).records[k]? = some out →
      falsyStr it.audio_filename = true → out.audio_filename = some f →
      (f == "") = false →
      env.storeOk f = true ∧
        Eff.storeMedia f ∈ (process_items cfg env false items st).effs) ∧
    (∀ (k : Nat) (it : Record), items[k]? = some it → falsyStr it.chinese = false →
      (falsyStr it.audio_filename = true →
        env.ttsOk (it.chinese.getD "") = true ∧
        env.storeOk
          (safe_filename (itemId it k ++ "_" ++ (it.chinese.getD "").take 20)) = true) →
      env.cardOpOk (itemId it k) = true →
      ∃ out, (process_items cfg env false items st).records[k]? = some out ∧
        falsyStr out.audio_filename = false ∧
        ∃ n, out.anki_note_id = some (NoteRef.real n)) := by
  refine ⟨processItemsAux_length cfg env false items 0 st, ?_, ?_, ?_, ?_⟩
  · intro k it hk hau hch htts
    obtain ⟨st', h1, _⟩ := processItemsAux_get cfg env false items 0 st k it hk
    rw [Nat.zero_add] at h1
    rw [show process_items cfg env false items st =
      processItemsAux cfg env false 0 items st from rfl, h1,
      (processItem_tts_fail cfg env k it st' hau hch htts).1]
  · intro k it hk hau hch hst'
    obtain ⟨st', h1, _⟩ := processItemsAux_get cfg env false items 0 st k it hk
    rw [Nat.zero_add] at h1
    rw [show process_items cfg env false items st =
      processItemsAux cfg env false 0 items st from rfl, h1,
      (processItem_store_fail cfg env k it st' hau hch hst').1]
  · intro k it out f hk hout hau hf hne
    obtain ⟨st', h1, h2⟩ := processItemsAux_get cfg env false items 0 st k it hk
    rw [Nat.zero_add] at h1 h2
    rw [show process_items cfg env false items st =
      processItemsAux cfg env false 0 items st from rfl] at hout
    rw [h1] at hout
    have hrec : (processItem cfg env false k it st').record = out :=
      Option.some.inj hout
    have h3 := processItem_audio_only_after_upload cfg env k it st' f hau
      (by rw [hrec]; exact hf) hne
    exact ⟨h3.1, h2 _ h3.2⟩
  · intro k it hk hch haud hco
    obtain ⟨st', h1, _⟩ := processItemsAux_get cfg env false items 0 st k it hk
    rw [Nat.zero_add] at h1
    have h4 := processItem_success cfg env k it st' hch haud hco
    exact ⟨(processItem cfg env false k it st').record, h1, h4.1, h4.2⟩

/-- Witness for `partial_failure_isolation`: three pending records, the
middle one failing TTS under `envC6`; it comes out untouched while both
neighbours complete in the same run. -/
theorem partial_failure_isolation_witness :
    (process_items cfg0 envC6 false itemsC6 st0).records[1]? = some recT2 ∧
      (∃ out, (process_items cfg0 envC6 false itemsC6 st0).records[0]? = some out ∧
        falsyStr out.audio_filename = false ∧
        ∃ n, out.anki_note_id = some (NoteRef.real n)) ∧
      (∃ out, (process_items cfg0 envC6 false itemsC6 st0).records[2]? = some out ∧
        falsyStr out.audio_filename = false ∧
        ∃ n, out.anki_note_id = some (NoteRef.real n)) := by
  have h := partial_failure_isolation cfg0 envC6 itemsC6 st0
  refine ⟨h.2.1 1 recT2 (by decide) (by decide) (by decide) (by decide), ?_, ?_⟩
  · exact h.2.2.2.2 0 recPend (by decide) (by decide)
      (fun _ => ⟨by decide, rfl⟩) rfl
  · exact h.2.2.2.2 2 recT3 (by decide) (by decide)
      (fun _ => ⟨by decide, rfl⟩) rfl

/-! ### Claim C10 -/

/-- `update_or_create_card` never makes a TTS call. -/
theorem update_or_create_no_tts (cfg : RunCfg) (cd : CardData) (st : AnkiState) :
    ∀ (b : Bool) (t p : String),
      Eff.ttsCall b t p ∉ (update_or_create_card cfg cd st).effs := by
  intro b t p hmem
  have h0 := (update_or_create_effs_profile cfg cd st).1
  rw [List.countP_eq_zero] at h0
  exact h0 _ hmem rfl

/-- A record that already carries audio never triggers a TTS call in a real
run. -/
theorem processItem_no_tts_when_audio_present (cfg : RunCfg) (env : Env)
    (idx : Nat) (it : Record) (st : AnkiState)
    (hau : falsyStr it.audio_filename = false) :
    ∀ (b : Bool) (t p : String),
      Eff.ttsCall b t p ∉ (processItem cfg env false idx it st).effs := by
  intro b t p hmem
  unfold processItem audioStage at hmem
  cases hch : falsyStr it.chinese with
  | true => simp [hch] at hmem
  | false =>
    cases hco : env.cardOpOk (itemId it idx) with
    | true =>
      simp [hch, hau, hco] at hmem
      exact update_or_create_no_tts cfg _ _ b t p hmem
    | false => simp [hch, hau, hco] at hmem

/-- Claim C10: in dry-run mode a pending record (chinese set, no audio)
still triggers TTS synthesis — the external backend is called and the local
audio file written — and the record receives both `audio_filename` and the
placeholder remote link `dry_run_<id>`, while the remote store is left
completely untouched (no media upload, no note mutation). Consequently a
subsequent real run performs no TTS call for that record, although its audio
was never stored remotely. -/
theorem dry_run_synthesizes_and_marks (cfg : RunCfg) (env : Env) (idx : Nat)
    (it : Record) (st : AnkiState)
    (hch : falsyStr it.chinese = false)
    (hau : falsyStr it.audio_filename = true)
    (htts : env.ttsOk (it.chinese.getD "") = true) :
    Eff.ttsCall env.gttsAvailable (it.chinese.getD "")
        (cfg.tempDir ++ "/" ++
          safe_filename (itemId it idx ++ "_" ++ (it.chinese.getD "").take 20))
      ∈ (processItem cfg env true idx it st).effs ∧
    Eff.localWrite (cfg.tempDir ++ "/" ++
        safe_filename (itemId it idx ++ "_" ++ (it.chinese.getD "").take 20))
      ∈ (processItem cfg env true idx it st).effs ∧
    (∀ f, Eff.storeMedia f ∉ (processItem cfg env true idx it st).effs) ∧
    (processItem cfg env true idx it st).state = st ∧
    (processItem cfg env true idx it st).record.audio_filename =
      some (safe_filename (itemId it idx ++ "_" ++ (it.chinese.getD "").take 20)) ∧
    (processItem cfg env true idx it st).record.anki_note_id =
      some (NoteRef.dryRun ("dry_run_" ++ itemId it idx)) ∧
    (∀ (env2 : Env) (idx2 : Nat) (st2 : AnkiState) (b : Bool) (t p : String),
      Eff.ttsCall b t p ∉
        (processItem cfg env2 false idx2
          (processItem cfg env true idx it st).record st2).effs) := by
  have hrec : (processItem cfg env true idx it st).record =
      { it with
        audio_filename :=
          some (safe_filename (itemId it idx ++ "_" ++ (it.chinese.getD "").take 20)),
        anki_note_id := some (NoteRef.dryRun ("dry_run_" ++ itemId it idx)) } := by
    unfold processItem audioStage
    simp [hch, hau, htts]
  refine ⟨?_, ?_, ?_, ?_, ?_, ?_, ?_⟩
  · unfold processItem audioStage
    simp [hch, hau, htts]
  · unfold processItem audioStage
    simp [hch, hau, htts]
  · intro f
    unfold processItem audioStage
    simp [hch, hau, htts]
  · unfold processItem audioStage
    simp [hch, hau, htts]
  · rw [hrec]
  · rw [hrec]
  · intro env2 idx2 st2 b t p
    apply processItem_no_tts_when_audio_present
    rw [hrec]
    exact safe_filename_beq_empty _

/-- Witness for `dry_run_synthesizes_and_marks` on a concrete pending
record. -/
theorem dry_run_synthesizes_and_marks_witness :
    Eff.ttsCall envAll.gttsAvailable (recPend.chinese.getD "")
        (cfg0.tempDir ++ "/" ++
          safe_filename (itemId recPend 0 ++ "_" ++ (recPend.chinese.getD "").take 20))
      ∈ (processItem cfg0 envAll true 0 recPend st0).effs ∧
    Eff.localWrite (cfg0.tempDir ++ "/" ++
        safe_filename (itemId recPend 0 ++ "_" ++ (recPend.chinese.getD "").take 20))
      ∈ (processItem cfg0 envAll true 0 recPend st0).effs ∧
    (∀ f, Eff.storeMedia f ∉ (processItem cfg0 envAll true 0 recPend st0).effs) ∧
    (processItem cfg0 envAll true 0 recPend st0).state = st0 ∧
    (processItem cfg0 envAll true 0 recPend st0).record.audio_filename =
      some (safe_filename (itemId recPend 0 ++ "_" ++ (recPend.chinese.getD "").take 20)) ∧
    (processItem cfg0 envAll true 0 recPend st0).record.anki_note_id =
      some (NoteRef.dryRun ("dry_run_" ++ itemId recPend 0)) ∧
    (∀ (env2 : Env) (idx2 : Nat) (st2 : AnkiState) (b : Bool) (t p : String),
      Eff.ttsCall b t p ∉
        (processItem cfg0 env2 false idx2
          (processItem cfg0 envAll true 0 recPend st0).record st2).effs) :=
  dry_run_synthesizes_and_marks cfg0 envAll 0 recPend st0 (by decide) (by decide) rfl
